import Mathlib

/-!
Verification of the remaw mutating admission webhook (src/webhook.go).

The Go program is a Kubernetes mutating admission webhook.  Its core is
three pure pieces plus a request handler:

* `mutationRequired` (the policy evaluator) inspects Pod annotations;
* `updateAnnotation`, `addSidecar`, `createPatch` (the patch builder)
  emit an RFC 6902 JSON Patch;
* `mutate` and `serve` (the request handler) decode the inbound
  AdmissionReview envelope and assemble the outbound one.

The embedding below mirrors the Go code construct by construct.  Go maps
are modelled as association lists with a lookup that returns the empty
string for a missing key, exactly the behaviour of `m[k]` on a Go
`map[string]string`; a possibly-nil map is an `Option`.  External
collaborators (the Kubernetes deserializer and the JSON unmarshaller)
are parameters of the handler functions.  A separate, generic model of
RFC 6901 JSON pointers and RFC 6902 add/replace application is used to
check the emitted patches against the Pod JSON document.
-/

namespace Remaw

/-! ## Constants (src/webhook.go lines 26-34) -/

def exporterDockerImage : String := "oliver006/redis_exporter:v0.33.0-alpine"

def statusKey : String := "redis-exporter-sidecar.nais.io/status"

def injectKey : String := "redis-exporter-sidecar.nais.io/inject"

def exporterPortKey : String := "redis-exporter-sidecar.nais.io/port"

def prometheusScrapeKey : String := "prometheus.io/scrape"

def prometheusPortKey : String := "prometheus.io/port"

def prometheusPathKey : String := "prometheus.io/path"

/-! ## Annotation maps

A Go `map[string]string` is modelled as an association list; indexing a
Go map returns the zero value `""` when the key is absent, which
`getAnnotation` reproduces.  A map that may be nil is an `Option`. -/

def Annotations := List (String × String)

instance : DecidableEq Annotations := by
  unfold Annotations
  infer_instance

def getAnnotation (m : Annotations) (k : String) : String :=
  match m.find? (fun p => p.1 == k) with
  | some p => p.2
  | none => ""

/-! ## String helpers

Kernel-reducible replacements for the Go standard library string
functions the webhook uses.  They work on the character list underlying
a `String`, so concrete instances evaluate by `decide`. -/

/-- ASCII lowercasing of one character.  Models Go `strings.ToLower`
for the ASCII annotation values the policy compares; the annotation
tokens involved are all ASCII. -/
def lowerChar (c : Char) : Char :=
  if 'A' ≤ c && c ≤ 'Z' then Char.ofNat (c.toNat + 32) else c

/-- `strings.ToLower`, restricted to ASCII case mapping. -/
def toLowerAscii (s : String) : String :=
  ⟨s.data.map lowerChar⟩

/-! ## The sidecar container (src/webhook.go lines 53-84)

Only the fields the Go code sets are modelled.  `resource.MustParse`
quantities are kept as their literal strings. -/

inductive PullPolicy where
  | always
  | ifNotPresent
  | never
deriving DecidableEq

inductive Protocol where
  | tcp
  | udp
  | sctp
deriving DecidableEq

structure ContainerPort where
  containerPort : Int
  name : String
  protocol : Protocol
deriving DecidableEq

structure ResourceList where
  cpu : String
  memory : String
deriving DecidableEq

structure ResourceRequirements where
  requests : ResourceList
  limits : ResourceList
deriving DecidableEq

structure Container where
  name : String
  image : String
  imagePullPolicy : PullPolicy
  ports : List ContainerPort
  resources : ResourceRequirements
deriving DecidableEq

def getDefaultSidecar : Container :=
  { name := "exporter"
    image := exporterDockerImage
    imagePullPolicy := .ifNotPresent
    ports := [{ containerPort := 9121, name := "http", protocol := .tcp }]
    resources :=
      { requests := { cpu := "100m", memory := "100Mi" }
        limits := { cpu := "100m", memory := "100Mi" } } }

/-! ## Patch operations (src/webhook.go lines 47-51, 78-106)

The Go `Value interface\x7b\x7d` field only ever holds a container, an
annotation map, or a string, so it is modelled as a tagged union. -/

inductive PatchValue where
  | container (c : Container)
  | annMap (m : Annotations)
  | str (s : String)
deriving DecidableEq

structure patchOperation where
  op : String
  path : String
  value : PatchValue
deriving DecidableEq

def addSidecar : patchOperation :=
  { op := "add"
    path := "/spec/containers/-"
    value := .container getDefaultSidecar }

def updateAnnotation (target : Option Annotations) : patchOperation :=
  match target with
  | none =>
      { op := "add"
        path := "/metadata/annotations"
        value := .annMap
            [(injectKey, "injected"),
             (prometheusScrapeKey, "true"),
             (prometheusPortKey, ""),
             (prometheusPathKey, "/metrics")] }
  | some m =>
      if getAnnotation m injectKey == "" then
        { op := "add"
          path := "/metadata/annotations"
          value := .annMap
              [(injectKey, "injected"),
               (prometheusScrapeKey, "true"),
               (prometheusPortKey, ""),
               (prometheusPathKey, "/metrics")] }
      else
        { op := "replace"
          path := "/metadata/annotations/" ++ injectKey
          value := .str "injected" }

/-! ## Pod metadata and the policy evaluator (src/webhook.go lines 115-136) -/

structure ObjectMeta where
  name : String := ""
  namespaceName : String := ""
  annotations : Option Annotations := none
deriving DecidableEq

structure PodSpec where
  containers : List Container := []
deriving DecidableEq

structure Pod where
  metadata : ObjectMeta := {}
  spec : PodSpec := {}
deriving DecidableEq

/-- The Go `switch` over the four case labels `"y", "yes", "true", "on"`
is the disjunction of four string equality tests. -/
def mutationRequired (metadata : ObjectMeta) : Bool :=
  match metadata.annotations with
  | none => false
  | some annotations =>
      let status := getAnnotation annotations statusKey
      if toLowerAscii status == "injected" then
        false
      else
        let inj := toLowerAscii ( getAnnotation annotations injectKey)
        inj == "y" || inj == "yes" || inj == "true" || inj == "on"

/-! ## The patch builder (src/webhook.go lines 108-113)

Go builds the slice `patch` and then returns `json.Marshal(patch)`.
Marshalling this fixed shape of structs, strings and integers cannot
fail in Go, so the embedded `createPatch` always returns `.ok`; the
`Except` mirrors the `([]byte, error)` signature, and the serialized
bytes are identified with the operation list they encode. -/

def createPatchOps (pod : Pod) : List patchOperation :=
  [addSidecar, updateAnnotation pod.metadata.annotations]

def createPatch (pod : Pod) : Except String (List patchOperation) :=
  .ok (createPatchOps pod)

/-! ## Admission envelope types and the handler (src/webhook.go lines 138-230)

`AdmissionRequest.objectRaw` carries the raw Pod bytes; pointer-valued
Go fields become Options.  `AdmissionResponse` keeps the fields the code
writes: UID, Allowed, Result.Message, Patch, PatchType. -/

structure AdmissionRequest where
  uid : String
  objectRaw : String
deriving DecidableEq

structure AdmissionResponse where
  uid : String := ""
  allowed : Bool := false
  resultMessage : Option String := none
  patch : Option (List patchOperation) := none
  patchType : Option String := none
deriving DecidableEq

structure AdmissionReview where
  request : Option AdmissionRequest := none
  response : Option AdmissionResponse := none
deriving DecidableEq

/-- `mutate` (src/webhook.go lines 138-179).  The JSON unmarshaller for
the raw Pod bytes is an external collaborator and is passed in as a
function.  The `createPatch` error branch of the Go code is kept even
though the embedded `createPatch` never returns an error. -/
def mutate (unmarshalPod : String → Except String Pod)
    (request : AdmissionRequest) : AdmissionResponse :=
  match unmarshalPod request.objectRaw with
  | .error e => { resultMessage := some e }
  | .ok pod =>
      if !(mutationRequired pod.metadata) then
        { allowed := true }
      else
        match createPatch pod with
        | .error e => { resultMessage := some e }
        | .ok patchOps =>
            { allowed := true
              patch := some patchOps
              patchType := some "JSONPatch" }

structure HttpRequest where
  /-- The bytes read from the request body; the Go code treats a read
  error or an absent body as zero bytes. -/
  body : String
  contentType : String
deriving DecidableEq

/-- Outcome of one call to `serve`.  `ok` is an HTTP 200 carrying the
JSON-encoded outbound envelope (the final `json.Marshal` of the fixed
envelope shape cannot fail, so the 500 branch is unreachable);
`httpError` is a transport-level rejection; `panicked` records the nil
pointer dereference `mutate` performs when a decoded envelope carries no
request. -/
inductive ServeResult where
  | httpError (status : Nat) (message : String)
  | ok (envelope : AdmissionReview)
  | panicked
deriving DecidableEq

/-- `serve` (src/webhook.go lines 181-230).  The Kubernetes
deserializer is an external collaborator and is passed in as a
function; a failed `Decode` leaves the zero envelope, whose request is
nil, so the UID assignment is skipped on that path. -/
def serve (decode : String → Except String AdmissionReview)
    (unmarshalPod : String → Except String Pod)
    (req : HttpRequest) : ServeResult :=
  if req.body.length == 0 then
    .httpError 400 "empty body"
  else if req.contentType != "application/json" then
    .httpError 415 "invalid Content-Type, expected application/json"
  else
    match decode req.body with
    | .error e =>
        .ok { response := some { resultMessage := some e } }
    | .ok ar =>
        match ar.request with
        | none => .panicked
        | some request =>
            let admissionResponse := mutate unmarshalPod request
            .ok { response := some { admissionResponse with uid := request.uid } }

/-! ## RFC 6901 JSON pointers and RFC 6902 add/replace application

This generic model is used to check the emitted patch operations
against the JSON document of the Pod, per the admission protocol: the
API server applies the returned JSONPatch to the original Pod document
with standard RFC 6902 semantics. -/

inductive Json where
  | null
  | bool (b : Bool)
  | num (n : Int)
  | str (s : String)
  | arr (elements : List Json)
  | obj (fields : List (String × Json))

/-- Replace every occurrence of the two-character sequence `a b` by the
single character `out`, scanning left to right. -/
def replacePair (a b out : Char) : List Char → List Char
  | [] => []
  | [c] => [c]
  | c :: d :: rest =>
      if c == a && d == b then out :: replacePair a b out rest
      else c :: replacePair a b out (d :: rest)

/-- RFC 6901 token unescaping: first `~1` becomes `/`, then `~0`
becomes `~`. -/
def unescapeToken (t : String) : String :=
  ⟨replacePair '~' '0' '~' (replacePair '~' '1' '/' t.data)⟩

/-- Split a character list on `/`, like Go `strings.Split`. -/
def splitSlashAux : List Char → List Char → List String
  | [], acc => [⟨acc.reverse⟩]
  | c :: rest, acc =>
      if c == '/' then ⟨acc.reverse⟩ :: splitSlashAux rest []
      else splitSlashAux rest (c :: acc)

/-- Parse a JSON pointer into its reference tokens.  The empty pointer
denotes the whole document; otherwise the pointer must start with `/`,
its tokens are the `/`-separated segments, unescaped. -/
def pointerTokens (p : String) : Option (List String) :=
  match p.data with
  | [] => some []
  | c :: rest =>
      if c == '/' then some ((splitSlashAux rest []).map unescapeToken)
      else none

/-- Parse a decimal numeral. -/
def parseDigits (cs : List Char) : Option Nat :=
  if cs.all Char.isDigit then
    some (cs.foldl (fun n c => n * 10 + (c.toNat - 48)) 0)
  else none

/-- RFC 6901 array index token: a non-empty digit string with no
superfluous leading zero. -/
def parseArrayIndex (t : String) : Option Nat :=
  match t.data with
  | [] => none
  | [c] => if c.isDigit then some (c.toNat - 48) else none
  | c :: rest => if c == '0' then none else parseDigits (c :: rest)

def lookupField (fields : List (String × Json)) (k : String) : Option Json :=
  match fields.find? (fun f => f.1 == k) with
  | some f => some f.2
  | none => none

def setField (fields : List (String × Json)) (k : String) (v : Json) :
    List (String × Json) :=
  if (fields.find? (fun f => f.1 == k)).isSome then
    fields.map (fun f => if f.1 == k then (k, v) else f)
  else
    fields ++ [(k, v)]

/-- Evaluate a token path against a document (RFC 6901 evaluation). -/
def resolveTokens (doc : Json) (tokens : List String) : Option Json :=
  match doc, tokens with
  | j, [] => some j
  | .obj fields, t :: ts =>
      match lookupField fields t with
      | some child => resolveTokens child ts
      | none => none
  | .arr xs, t :: ts =>
      match parseArrayIndex t with
      | some i =>
          match xs[i]? with
          | some child => resolveTokens child ts
          | none => none
      | none => none
  | _, _ => none

def resolvePointer (doc : Json) (p : String) : Option Json :=
  match pointerTokens p with
  | some ts => resolveTokens doc ts
  | none => none

/-- RFC 6902 `add`: the parent of the target location must exist; an
object member is inserted or overwritten, an array element is inserted
at the index, and the token `-` appends. -/
def addAt (doc : Json) (tokens : List String) (v : Json) : Option Json :=
  match doc, tokens with
  | _, [] => some v
  | .obj fields, [t] => some (.obj (setField fields t v))
  | .arr xs, [t] =>
      if t == "-" then some (.arr (xs ++ [v]))
      else
        match parseArrayIndex t with
        | some i =>
            if i ≤ xs.length then some (.arr (xs.take i ++ v :: xs.drop i))
            else none
        | none => none
  | .obj fields, t :: ts =>
      match lookupField fields t with
      | some child => (addAt child ts v).map (fun c => .obj (setField fields t c))
      | none => none
  | .arr xs, t :: ts =>
      match parseArrayIndex t with
      | some i =>
          match xs[i]? with
          | some child => (addAt child ts v).map (fun c => .arr (xs.set i c))
          | none => none
      | none => none
  | _, _ => none

/-- RFC 6902 `replace`: the target location must already exist. -/
def replaceAt (doc : Json) (tokens : List String) (v : Json) : Option Json :=
  match doc, tokens with
  | _, [] => some v
  | .obj fields, [t] =>
      if (lookupField fields t).isSome then some (.obj (setField fields t v))
      else none
  | .arr xs, [t] =>
      match parseArrayIndex t with
      | some i => if i < xs.length then some (.arr (xs.set i v)) else none
      | none => none
  | .obj fields, t :: ts =>
      match lookupField fields t with
      | some child => (replaceAt child ts v).map (fun c => .obj (setField fields t c))
      | none => none
  | .arr xs, t :: ts =>
      match parseArrayIndex t with
      | some i =>
          match xs[i]? with
          | some child => (replaceAt child ts v).map (fun c => .arr (xs.set i c))
          | none => none
      | none => none
  | _, _ => none

structure JsonPatchOp where
  op : String
  path : String
  value : Json

def applyJsonPatchOp (doc : Json) (op : JsonPatchOp) : Option Json :=
  match pointerTokens op.path with
  | none => none
  | some tokens =>
      if op.op == "add" then addAt doc tokens op.value
      else if op.op == "replace" then replaceAt doc tokens op.value
      else none

def applyJsonPatch (doc : Json) (ops : List JsonPatchOp) : Option Json :=
  match ops with
  | [] => some doc
  | op :: rest =>
      match applyJsonPatchOp doc op with
      | some doc2 => applyJsonPatch doc2 rest
      | none => none

/-! ## Serialization of the patch values and the Pod document

These mirror the Kubernetes JSON encoding of the objects involved, as
the API server sees them: annotation values are strings, `metadata` and
`spec.containers` are always present on a served Pod, and an empty or
nil annotation map is omitted (`json:"annotations,omitempty"`). -/

def annotationsJson (m : Annotations) : Json :=
  .obj (m.map (fun p => (p.1, .str p.2)))

def pullPolicyString : PullPolicy → String
  | .always => "Always"
  | .ifNotPresent => "IfNotPresent"
  | .never => "Never"

def protocolString : Protocol → String
  | .tcp => "TCP"
  | .udp => "UDP"
  | .sctp => "SCTP"

def containerPortJson (p : ContainerPort) : Json :=
  .obj [("containerPort", .num p.containerPort),
        ("name", .str p.name),
        ("protocol", .str (protocolString p.protocol))]

def resourceListJson (r : ResourceList) : Json :=
  .obj [("cpu", .str r.cpu), ("memory", .str r.memory)]

def containerJson (c : Container) : Json :=
  .obj [("name", .str c.name),
        ("image", .str c.image),
        ("imagePullPolicy", .str (pullPolicyString c.imagePullPolicy)),
        ("ports", .arr (c.ports.map containerPortJson)),
        ("resources",
          .obj [("requests", resourceListJson c.resources.requests),
                ("limits", resourceListJson c.resources.limits)])]

def patchValueJson : PatchValue → Json
  | .container c => containerJson c
  | .annMap m => annotationsJson m
  | .str s => .str s

def patchOpJson (p : patchOperation) : JsonPatchOp :=
  { op := p.op, path := p.path, value := patchValueJson p.value }

def metadataJson (m : ObjectMeta) : Json :=
  .obj ([("name", .str m.name), ("namespace", .str m.namespaceName)] ++
    (match m.annotations with
     | none => []
     | some a => if a.isEmpty then [] else [("annotations", annotationsJson a)]))

def podJson (pod : Pod) : Json :=
  .obj [("metadata", metadataJson pod.metadata),
        ("spec", .obj [("containers", .arr (pod.spec.containers.map containerJson))])]

/-! ## Helper lemmas -/

theorem toLowerAscii_empty : toLowerAscii "" = "" := rfl

/-- A truthy inject value is non-empty. -/
theorem getAnnotation_ne_empty_of_truthy (m : Annotations)
    (h : toLowerAscii ( getAnnotation m injectKey) = "y" ∨
         toLowerAscii ( getAnnotation m injectKey) = "yes" ∨
         toLowerAscii ( getAnnotation m injectKey) = "true" ∨
         toLowerAscii ( getAnnotation m injectKey) = "on") :
    getAnnotation m injectKey ≠ "" := by
  intro he
  rw [he, toLowerAscii_empty] at h
  rcases h with h | h | h | h <;> exact absurd h (by decide)

/-- Every value stored in the JSON object of an annotation map is a
string node. -/
theorem lookupField_annotationsJson (m : Annotations) (k : String) :
    lookupField (m.map (fun p => (p.1, Json.str p.2))) k =
      (m.find? (fun p => p.1 == k)).map (fun p => Json.str p.2) := by
  induction m with
  | nil => rfl
  | cons p rest ih =>
      by_cases h : p.1 == k
      · simp [lookupField, List.find?, h]
      · simp only [List.map_cons, lookupField, List.find?] at *
        rw [Bool.not_eq_true] at h
        simp only [h]
        exact ih

/-- A replace through a two-token pointer cannot succeed inside an
annotation object: every member value is a string, which has no
children. -/
theorem replaceAt_annotationsJson_two (m : Annotations) (t1 t2 : String)
    (v : Json) : replaceAt (annotationsJson m) [t1, t2] v = none := by
  rw [annotationsJson]
  rcases hf : m.find? (fun p => p.1 == t1) with _ | p
  · have hl : lookupField (m.map (fun p => (p.1, Json.str p.2))) t1 = none := by
      rw [lookupField_annotationsJson, hf]; rfl
    simp [replaceAt, hl]
  · have hl : lookupField (m.map (fun p => (p.1, Json.str p.2))) t1 =
        some (Json.str p.2) := by
      rw [lookupField_annotationsJson, hf]; rfl
    simp [replaceAt, hl]

/-- Unfolding equation for `replaceAt` on an object with at least two
remaining tokens. -/
theorem replaceAt_obj_cons2 (fields : List (String × Json)) (t t2 : String)
    (ts : List String) (v : Json) :
    replaceAt (Json.obj fields) (t :: t2 :: ts) v =
      match lookupField fields t with
      | some child =>
          (replaceAt child (t2 :: ts) v).map (fun c => Json.obj (setField fields t c))
      | none => none := rfl

/-- The replace path the webhook emits can never be applied to the JSON
document of any Pod: its four reference tokens descend one level past
the annotation object, and annotation values are strings. -/
theorem replaceAt_pod_inject_tokens (pod : Pod) (v : Json) :
    replaceAt (podJson pod)
      ["metadata", "annotations", "redis-exporter-sidecar.nais.io", "inject"]
      v = none := by
  have hmeta : replaceAt (metadataJson pod.metadata)
      ["annotations", "redis-exporter-sidecar.nais.io", "inject"] v = none := by
    rw [metadataJson, replaceAt_obj_cons2]
    rcases pod.metadata.annotations with _ | (_ | ⟨p, rest⟩)
    · simp [lookupField, List.find?]
    · simp [lookupField, List.find?, List.isEmpty]
    · simp [lookupField, List.find?, List.isEmpty,
        replaceAt_annotationsJson_two]
  rw [podJson, replaceAt_obj_cons2]
  have hl : lookupField
      [("metadata", metadataJson pod.metadata),
       ("spec", Json.obj [("containers",
          Json.arr (pod.spec.containers.map containerJson))])] "metadata" =
      some (metadataJson pod.metadata) := by
    simp [lookupField, List.find?]
  rw [hl]
  simp [hmeta]

/-! ## Claim theorems -/

/-- Claim C4: for every annotation mapping whose status annotation,
compared case-insensitively, equals "injected", `mutationRequired`
returns false, regardless of the inject annotation or of any other
annotation. -/
theorem claim4_status_injected_skips (name ns : String) (m : Annotations)
    (h : toLowerAscii ( getAnnotation m statusKey) = "injected") :
    mutationRequired
      { name := name, namespaceName := ns, annotations := some m } = false := by
  simp [mutationRequired, h]

theorem claim4_witness :
    mutationRequired
      { name := "app", namespaceName := "prod",
        annotations := some [(statusKey, "Injected"), (injectKey, "yes")] } =
      false :=
  claim4_status_injected_skips "app" "prod" _ (by decide)

/-- Claim C5: for every annotation mapping whose status annotation is
not "injected" case-insensitively, `mutationRequired` returns true if
and only if the lowercased inject value is one of y, yes, true, on; and
a nil annotation mapping always yields false. -/
theorem claim5_truthy_inject :
    (∀ (name ns : String) (m : Annotations),
        toLowerAscii ( getAnnotation m statusKey) ≠ "injected" →
        (mutationRequired
            { name := name, namespaceName := ns, annotations := some m } = true ↔
          (toLowerAscii ( getAnnotation m injectKey) = "y" ∨
           toLowerAscii ( getAnnotation m injectKey) = "yes" ∨
           toLowerAscii ( getAnnotation m injectKey) = "true" ∨
           toLowerAscii ( getAnnotation m injectKey) = "on"))) ∧
    (∀ (name ns : String),
        mutationRequired
          { name := name, namespaceName := ns, annotations := none } = false) := by
  constructor
  · intro name ns m h
    simp [mutationRequired, h]
    tauto
  · intro name ns
    rfl

theorem claim5_witness :
    mutationRequired
      { name := "app", namespaceName := "prod",
        annotations := some [(injectKey, "TRUE")] } = true :=
  (claim5_truthy_inject.1 "app" "prod" _ (by decide)).mpr (by decide)

/-- Claim C2: whenever the embedded Pod payload of a decoded admission
request unmarshals successfully, the response `mutate` returns carries
allowed equal to true; the only branch that leaves allowed false is the
one taken when building the patch fails, and the embedded `createPatch`
never fails. -/
theorem claim2_mutate_allowed
    (unmarshalPod : String → Except String Pod) (request : AdmissionRequest)
    (pod : Pod) (h : unmarshalPod request.objectRaw = .ok pod) :
    (mutate unmarshalPod request).allowed = true := by
  simp only [mutate, h, createPatch]
  by_cases hm : mutationRequired pod.metadata <;> simp [hm]

/-- Concrete Pod opted in through the inject annotation, reused by the
witnesses below. -/
def podYes : Pod :=
  { metadata :=
      { name := "app", namespaceName := "prod",
        annotations := some [(injectKey, "yes")] } }

theorem claim2_witness :
    (mutate (fun _ => .ok podYes)
      { uid := "u1", objectRaw := "rawpod" }).allowed = true :=
  claim2_mutate_allowed _ _ _ rfl

/-- Claim C3: for every request whose inbound envelope decodes
successfully and carries an admission request, the outbound envelope
produced by `serve` carries a response whose UID equals the UID of the
decoded request. -/
theorem claim3_response_uid
    (decode : String → Except String AdmissionReview)
    (unmarshalPod : String → Except String Pod)
    (req : HttpRequest) (ar : AdmissionReview) (request : AdmissionRequest)
    (hbody : req.body.length ≠ 0)
    (hct : req.contentType = "application/json")
    (hdec : decode req.body = .ok ar)
    (hreq : ar.request = some request) :
    ∃ response : AdmissionResponse,
      serve decode unmarshalPod req = .ok { response := some response } ∧
      response.uid = request.uid := by
  refine ⟨{ mutate unmarshalPod request with uid := request.uid }, ?_, rfl⟩
  have h1 : (req.body.length == 0) = false := by simp [hbody]
  have h2 : (req.contentType != "application/json") = false := by simp [hct]
  simp only [serve, h1, h2, Bool.false_eq_true, if_false, hdec, hreq]

/-- Concrete decoded envelope reused by the witnesses below. -/
def arSample : AdmissionReview :=
  { request := some { uid := "uid-123", objectRaw := "raw" } }

/-- Concrete well-formed HTTP request reused by the witnesses below. -/
def reqSample : HttpRequest :=
  { body := "x", contentType := "application/json" }

theorem claim3_witness :
    ∃ response : AdmissionResponse,
      serve (fun _ => .ok arSample) (fun _ => .error "no pod") reqSample =
        .ok { response := some response } ∧
      response.uid = "uid-123" :=
  claim3_response_uid (fun _ => .ok arSample) (fun _ => .error "no pod")
    reqSample arSample { uid := "uid-123", objectRaw := "raw" }
    (by decide) rfl rfl rfl

/-- Claim C7: for every Pod, `createPatch` emits exactly two operations,
the container add first and the annotation operation second; the add
targets the append path of the container list and its value is the
fixed sidecar template with the pinned image tag, the constant port
9121, pull policy IfNotPresent, and requests equal to limits. -/
theorem claim7_patch_shape (pod : Pod) :
    createPatch pod = .ok [addSidecar, updateAnnotation pod.metadata.annotations] ∧
    createPatchOps pod = [addSidecar, updateAnnotation pod.metadata.annotations] ∧
    addSidecar =
      { op := "add", path := "/spec/containers/-",
        value := .container getDefaultSidecar } ∧
    getDefaultSidecar =
      { name := "exporter",
        image := "oliver006/redis_exporter:v0.33.0-alpine",
        imagePullPolicy := .ifNotPresent,
        ports := [{ containerPort := 9121, name := "http", protocol := .tcp }],
        resources := { requests := { cpu := "100m", memory := "100Mi" },
                       limits := { cpu := "100m", memory := "100Mi" } } } ∧
    getDefaultSidecar.resources.requests = getDefaultSidecar.resources.limits :=
  ⟨rfl, rfl, rfl, rfl, rfl⟩

/-- Claim C9: whenever `mutationRequired` returns true, the annotation
operation the patch builder emits is the targeted replace operation;
the full-map add branch is unreachable through the handler pipeline,
since a true policy verdict needs a non-nil mapping with a non-empty
truthy inject value. -/
theorem claim9_replace_branch_only (metadata : ObjectMeta)
    (h : mutationRequired metadata = true) :
    updateAnnotation metadata.annotations =
      { op := "replace", path := "/metadata/annotations/" ++ injectKey,
        value := .str "injected" } := by
  rcases hann : metadata.annotations with _ | m
  · simp [mutationRequired, hann] at h
  · have htr : toLowerAscii ( getAnnotation m injectKey) = "y" ∨
        toLowerAscii ( getAnnotation m injectKey) = "yes" ∨
        toLowerAscii ( getAnnotation m injectKey) = "true" ∨
        toLowerAscii ( getAnnotation m injectKey) = "on" := by
      simp only [mutationRequired, hann] at h
      split at h
      · exact absurd h (by decide)
      · simp only [Bool.or_eq_true, beq_iff_eq] at h
        tauto
    have hne := getAnnotation_ne_empty_of_truthy m htr
    simp [hann, updateAnnotation, hne]

theorem claim9_witness :
    updateAnnotation
      ({ name := "app", namespaceName := "prod",
         annotations := some [(injectKey, "yes"), ("team", "payments")] } :
        ObjectMeta).annotations =
      { op := "replace", path := "/metadata/annotations/" ++ injectKey,
        value := .str "injected" } :=
  claim9_replace_branch_only _ (by decide)

/-- Claim C8: a non-empty body of the right content type whose envelope
fails to decode, and likewise a decoded request whose Pod payload fails
to unmarshal, produce no transport-level error: `serve` answers HTTP
200 with a response whose result message is the error text, allowed
left false by omission, and no patch. -/
theorem claim8_decode_errors_http200 :
    (∀ (decode : String → Except String AdmissionReview)
       (unmarshalPod : String → Except String Pod)
       (req : HttpRequest) (e : String),
       req.body.length ≠ 0 → req.contentType = "application/json" →
       decode req.body = .error e →
       serve decode unmarshalPod req =
         .ok { response := some { uid := "", allowed := false,
                                  resultMessage := some e, patch := none,
                                  patchType := none } }) ∧
    (∀ (decode : String → Except String AdmissionReview)
       (unmarshalPod : String → Except String Pod)
       (req : HttpRequest) (ar : AdmissionReview)
       (request : AdmissionRequest) (e : String),
       req.body.length ≠ 0 → req.contentType = "application/json" →
       decode req.body = .ok ar → ar.request = some request →
       unmarshalPod request.objectRaw = .error e →
       serve decode unmarshalPod req =
         .ok { response := some { uid := request.uid, allowed := false,
                                  resultMessage := some e, patch := none,
                                  patchType := none } }) := by
  constructor
  · intro decode unmarshalPod req e hbody hct hdec
    have h1 : (req.body.length == 0) = false := by simp [hbody]
    have h2 : (req.contentType != "application/json") = false := by simp [hct]
    simp only [serve, h1, h2, Bool.false_eq_true, if_false, hdec]
  · intro decode unmarshalPod req ar request e hbody hct hdec hreq hpod
    have h1 : (req.body.length == 0) = false := by simp [hbody]
    have h2 : (req.contentType != "application/json") = false := by simp [hct]
    simp only [serve, h1, h2, Bool.false_eq_true, if_false, hdec, hreq,
      mutate, hpod]

theorem claim8_witness :
    serve (fun _ => .error "bad envelope") (fun _ => .ok {}) reqSample =
      .ok { response := some { uid := "", allowed := false,
                               resultMessage := some "bad envelope",
                               patch := none, patchType := none } } ∧
    serve (fun _ => .ok arSample) (fun _ => .error "bad pod") reqSample =
      .ok { response := some { uid := "uid-123", allowed := false,
                               resultMessage := some "bad pod",
                               patch := none, patchType := none } } :=
  ⟨claim8_decode_errors_http200.1 (fun _ => .error "bad envelope")
      (fun _ => .ok {}) reqSample "bad envelope" (by decide) rfl rfl,
   claim8_decode_errors_http200.2 (fun _ => .ok arSample)
      (fun _ => .error "bad pod") reqSample arSample
      { uid := "uid-123", objectRaw := "raw" } "bad pod"
      (by decide) rfl rfl rfl rfl⟩

/-- Claim C1 (code bug): the inject key contains a slash, and the code
concatenates it into the replace path without the `~1` escaping RFC
6901 requires.  At a Pod whose inject annotation is "yes", the patch
contains the replace operation, the path splits into four reference
tokens, and resolving it against the Pod JSON document fails, even
though the inject annotation is present (the correctly escaped pointer
resolves to its value). -/
theorem claim1_replace_path_unresolvable :
    createPatchOps podYes =
      [addSidecar,
       { op := "replace", path := "/metadata/annotations/" ++ injectKey,
         value := .str "injected" }] ∧
    pointerTokens ("/metadata/annotations/" ++ injectKey) =
      some ["metadata", "annotations", "redis-exporter-sidecar.nais.io",
            "inject"] ∧
    resolvePointer (podJson podYes) ("/metadata/annotations/" ++ injectKey) =
      none ∧
    resolvePointer (podJson podYes)
        "/metadata/annotations/redis-exporter-sidecar.nais.io~1inject" =
      some (.str "yes") ∧
    applyJsonPatchOp (podJson podYes)
        (patchOpJson ( updateAnnotation podYes.metadata.annotations)) = none :=
  ⟨rfl, rfl, rfl, rfl, rfl⟩

/-- Claim C6 counterexample: for the annotation map with inject "yes"
and a team annotation, the emitted operation is the replace, but
applying it to the Pod document fails outright, so it does not
overwrite the inject annotation in place. -/
theorem claim6_counterexample :
    updateAnnotation (some [(injectKey, "yes"), ("team", "payments")]) =
      { op := "replace", path := "/metadata/annotations/" ++ injectKey,
        value := .str "injected" } ∧
    applyJsonPatchOp
        (podJson { metadata :=
          { name := "app", namespaceName := "prod",
            annotations := some [(injectKey, "yes"), ("team", "payments")] } })
        (patchOpJson
          ( updateAnnotation (some [(injectKey, "yes"), ("team", "payments")]))) =
      none :=
  ⟨rfl, rfl⟩

/-- Claim C6 (amended): `updateAnnotation` returns exactly one of two
operations: the full-map add when the mapping is nil or the inject
value empty (replacing the whole annotation mapping), and otherwise the
replace at the unescaped inject-key path; that replace is intended to
overwrite only the inject annotation but, because the slash in the key
is not escaped per RFC 6901, it fails to apply to the JSON document of
every Pod and overwrites nothing. -/
theorem claim6_amended :
    ( updateAnnotation none =
      { op := "add", path := "/metadata/annotations",
        value := .annMap [(injectKey, "injected"), (prometheusScrapeKey, "true"),
                          (prometheusPortKey, ""), (prometheusPathKey, "/metrics")] }) ∧
    (∀ m : Annotations, getAnnotation m injectKey = "" →
      updateAnnotation (some m) =
        { op := "add", path := "/metadata/annotations",
          value := .annMap [(injectKey, "injected"), (prometheusScrapeKey, "true"),
                            (prometheusPortKey, ""), (prometheusPathKey, "/metrics")] }) ∧
    (∀ m : Annotations, getAnnotation m injectKey ≠ "" →
      updateAnnotation (some m) =
        { op := "replace", path := "/metadata/annotations/" ++ injectKey,
          value := .str "injected" }) ∧
    (∀ pod : Pod,
      applyJsonPatchOp (podJson pod)
        (patchOpJson
          { op := "replace", path := "/metadata/annotations/" ++ injectKey,
            value := .str "injected" }) = none) := by
  refine ⟨rfl, ?_, ?_, ?_⟩
  · intro m h
    simp [ updateAnnotation, h]
  · intro m h
    simp [ updateAnnotation, h]
  · intro pod
    have key : ∀ d : Json,
        applyJsonPatchOp d
          (patchOpJson
            { op := "replace", path := "/metadata/annotations/" ++ injectKey,
              value := .str "injected" }) =
        replaceAt d
          ["metadata", "annotations", "redis-exporter-sidecar.nais.io",
           "inject"] (.str "injected") :=
      fun d => rfl
    rw [key]
    exact replaceAt_pod_inject_tokens pod _

theorem claim6_amended_witness :
    updateAnnotation (some [("team", "payments")]) =
      { op := "add", path := "/metadata/annotations",
        value := .annMap [(injectKey, "injected"), (prometheusScrapeKey, "true"),
                          (prometheusPortKey, ""), (prometheusPathKey, "/metrics")] } ∧
    updateAnnotation (some [(injectKey, "yes"), ("team", "payments")]) =
      { op := "replace", path := "/metadata/annotations/" ++ injectKey,
        value := .str "injected" } :=
  ⟨claim6_amended.2.1 [("team", "payments")] (by decide),
   claim6_amended.2.2.1 [(injectKey, "yes"), ("team", "payments")] (by decide)⟩

/-- Claim C10 (code bug): at a Pod the webhook actually mutates, the
policy fires, the annotation operation carries the value "injected",
yet the emitted patch fails to apply under RFC 6902 semantics because
of the unescaped replace path, so the patch never sets the inject
annotation and the claimed idempotence mechanism never engages. -/
theorem claim10_patch_fails_at_mutated_pod :
    mutationRequired podYes.metadata = true ∧
    ( updateAnnotation podYes.metadata.annotations).value = .str "injected" ∧
    applyJsonPatchOp (podJson podYes) (patchOpJson addSidecar) =
      some (Json.obj
        [("metadata", metadataJson podYes.metadata),
         ("spec", Json.obj [("containers",
            Json.arr [containerJson getDefaultSidecar])])]) ∧
    applyJsonPatch (podJson podYes)
      ((createPatchOps podYes).map patchOpJson) = none :=
  ⟨by decide, rfl, rfl, rfl⟩

end Remaw
